import Mathlib

/-!
Verification of the component lifecycle and viewport/scroll tracking subsystem
of this repository (Subscribable, Resize debounce, Track bounds and value
computation, lifecycle registries and the page transition controller,
createCycles module binding).

Each source construct is shallowly embedded as an executable Lean definition;
JavaScript numbers are modelled as Int or Rat, symbols and callbacks as
abstract Nat tokens, and promise settlement as Except values.
-/

namespace Subs

/-- A subscriber entry of Subscribable (src/src/lib/subs.ts line 6):
callback (an abstract token), priority and identity.  The JS identity is a fresh
Symbol per add call by default; we model it as the ordinal number of the add
call, which is likewise fresh and records insertion order. -/
structure Sub where
  fn : Nat
  priority : Int
  id : Nat
deriving Repr, DecidableEq

/-- JS Array.prototype.findIndex, with -1 rendered as none. -/
def findIndex (p : Sub → Bool) : List Sub → Option Nat
  | [] => none
  | x :: xs => if p x then some 0 else (findIndex p xs).map (· + 1)

/-- Subscribable.add (subs.ts lines 8-16): find the first existing entry whose
priority is strictly greater than the new priority; if none, push at the end,
otherwise splice the new entry in before it. -/
def add (subs : List Sub) (s : Sub) : List Sub :=
  match findIndex (fun sub => decide (s.priority < sub.priority)) subs with
  | none => subs ++ [s]
  | some index => subs.take index ++ s :: subs.drop index

/-- Subscribable.notify (subs.ts lines 22-25): with fewer than one subscriber
it returns at once; otherwise forEach invokes each callback in array order.
The result lists the entries in invocation order. -/
def notifyOrder (subs : List Sub) : List Sub :=
  if subs.length < 1 then [] else subs

/-- A sequence of add calls: each call supplies a callback token and a
priority; identities are handed out in call order starting at n. -/
def buildFrom (subs : List Sub) (n : Nat) (calls : List (Nat × Int)) : List Sub :=
  match calls with
  | [] => subs
  | c :: rest => buildFrom (add subs ⟨c.1, c.2, n⟩) (n + 1) rest

/-- The subscriber list after a sequence of add calls on a fresh
Subscribable. -/
def buildSubs (calls : List (Nat × Int)) : List Sub :=
  buildFrom [] 0 calls

/-- The intended ordering of dispatch: strictly lower priority first, and
among equal priorities the earlier insertion (smaller identity) first. -/
def entryLE (a b : Sub) : Prop :=
  a.priority < b.priority ∨ (a.priority = b.priority ∧ a.id < b.id)

theorem entryLE_le {a b : Sub} (h : entryLE a b) : a.priority ≤ b.priority := by
  rcases h with h | ⟨h, _⟩
  · exact le_of_lt h
  · exact le_of_eq h

theorem add_cons_lt {x : Sub} {xs : List Sub} {s : Sub}
    (h : s.priority < x.priority) : add (x :: xs) s = s :: x :: xs := by
  simp [add, findIndex, h]

theorem add_cons_ge {x : Sub} {xs : List Sub} {s : Sub}
    (h : ¬ s.priority < x.priority) : add (x :: xs) s = x :: add xs s := by
  simp only [add, findIndex, decide_eq_true_eq, if_neg h]
  cases hfi : findIndex (fun sub => decide (s.priority < sub.priority)) xs with
  | none => simp
  | some i => simp

theorem mem_add {subs : List Sub} {s y : Sub} (h : y ∈ add subs s) :
    y ∈ subs ∨ y = s := by
  induction subs with
  | nil =>
    simp [add, findIndex] at h
    exact Or.inr h
  | cons x xs ih =>
    by_cases hlt : s.priority < x.priority
    · rw [add_cons_lt hlt] at h
      rcases List.mem_cons.mp h with h | h
      · exact Or.inr h
      · exact Or.inl h
    · rw [add_cons_ge hlt] at h
      rcases List.mem_cons.mp h with h | h
      · rw [h]; exact Or.inl (List.mem_cons_self x xs)
      · rcases ih h with h2 | h2
        · exact Or.inl (List.mem_cons_of_mem x h2)
        · exact Or.inr h2

theorem add_ordered {subs : List Sub} {s : Sub}
    (hord : List.Pairwise entryLE subs)
    (hid : ∀ x ∈ subs, x.id < s.id) :
    List.Pairwise entryLE (add subs s) := by
  induction subs with
  | nil => simp [add, findIndex]
  | cons x xs ih =>
    rcases List.pairwise_cons.mp hord with ⟨hx, hxs⟩
    by_cases hlt : s.priority < x.priority
    · rw [add_cons_lt hlt]
      refine List.pairwise_cons.mpr ⟨?_, hord⟩
      intro y hy
      rcases List.mem_cons.mp hy with hy | hy
      · rw [hy]; exact Or.inl hlt
      · exact Or.inl (lt_of_lt_of_le hlt (entryLE_le (hx y hy)))
    · rw [add_cons_ge hlt]
      refine List.pairwise_cons.mpr ⟨?_, ?_⟩
      · intro y hy
        rcases mem_add hy with hy2 | hy2
        · exact hx y hy2
        · rw [hy2]
          by_cases heq : x.priority < s.priority
          · exact Or.inl heq
          · exact Or.inr ⟨le_antisymm (not_lt.mp hlt) (not_lt.mp heq),
              hid x (List.mem_cons_self x xs)⟩
      · exact ih hxs (fun z hz => hid z (List.mem_cons_of_mem x hz))

theorem buildFrom_ordered (calls : List (Nat × Int)) :
    ∀ (subs : List Sub) (n : Nat),
      List.Pairwise entryLE subs → (∀ x ∈ subs, x.id < n) →
      List.Pairwise entryLE (buildFrom subs n calls) := by
  induction calls with
  | nil => intro subs n hord _; exact hord
  | cons c rest ih =>
    intro subs n hord hid
    refine ih (add subs ⟨c.1, c.2, n⟩) (n + 1) (add_ordered hord hid) ?_
    intro x hx
    rcases mem_add hx with hx2 | hx2
    · exact Nat.lt_succ_of_lt (hid x hx2)
    · subst hx2; exact Nat.lt_succ_self n

/-- Claim C2: for every sequence of add calls, notify invokes the live
callbacks in non-decreasing priority order, and among entries with equal
priority in their insertion order. -/
theorem c2_notify_priority_order (calls : List (Nat × Int)) :
    List.Pairwise entryLE (notifyOrder (buildSubs calls)) := by
  have h : List.Pairwise entryLE (buildSubs calls) :=
    buildFrom_ordered calls [] 0 (List.Pairwise.nil) (by intro x hx; cases hx)
  unfold notifyOrder
  by_cases hlen : (buildSubs calls).length < 1
  · simp [hlen]
  · simpa [hlen] using h

/-! Notify with a synchronously throwing callback (claim C9).  A callback is
modelled by its behaviour when invoked: it either returns normally or throws
an exception.  forEach in notify invokes the callbacks one after another with
no try/catch around them, so a throw propagates out of notify and stops the
iteration. -/

/-- A subscriber whose callback either returns or throws an exception
(modelled as a Nat code). -/
structure ESub where
  id : Nat
  outcome : Except Nat Unit
deriving Repr

/-- Iterate the callbacks in order, as forEach does: record each invoked
identity; a throwing callback ends the iteration and its exception escapes. -/
def notifyExcAux : List ESub → List Nat × Option Nat
  | [] => ([], none)
  | s :: rest =>
    match s.outcome with
    | Except.ok _ =>
      let r := notifyExcAux rest
      (s.id :: r.1, r.2)
    | Except.error e => ([s.id], some e)

/-- Subscribable.notify over fallible callbacks (subs.ts lines 22-25):
the fast path returns when there are fewer than one subscriber; the result is
the list of invoked identities in order, together with the exception that
escaped to the caller, if any. -/
def notifyExc (subs : List ESub) : List Nat × Option Nat :=
  if subs.length < 1 then ([], none) else notifyExcAux subs

theorem notifyExcAux_ok_append {pre : List ESub} {rest : List ESub}
    (hpre : ∀ x ∈ pre, x.outcome = Except.ok ()) :
    notifyExcAux (pre ++ rest) =
      ((pre.map ESub.id) ++ (notifyExcAux rest).1, (notifyExcAux rest).2) := by
  induction pre with
  | nil => simp [notifyExcAux]
  | cons x xs ih =>
    have hx : x.outcome = Except.ok () := hpre x (List.mem_cons_self x xs)
    have ihx := ih (fun z hz => hpre z (List.mem_cons_of_mem x hz))
    simp [notifyExcAux, hx, ihx]

/-- Claim C9: if a subscriber callback throws synchronously during notify,
the exception propagates to the caller of notify and the subscribers ordered
after it in that notification are not invoked. -/
theorem c9_throw_aborts_rest (pre : List ESub) (s : ESub) (rest : List ESub)
    (e : Nat)
    (hpre : ∀ x ∈ pre, x.outcome = Except.ok ())
    (hs : s.outcome = Except.error e) :
    notifyExc (pre ++ s :: rest) = (pre.map ESub.id ++ [s.id], some e) := by
  have hlen : ¬ (pre ++ s :: rest).length < 1 := by
    simp [List.length_append]
  rw [notifyExc, if_neg hlen, notifyExcAux_ok_append hpre]
  simp [notifyExcAux, hs]

/-- Witness for C9 at a concrete registry: three subscribers, the middle one
throws exception 7; subscribers 0 and 1 run, subscriber 2 is never invoked,
and the exception reaches the caller. -/
theorem c9_witness :
    notifyExc [⟨0, Except.ok ()⟩, ⟨1, Except.error 7⟩, ⟨2, Except.ok ()⟩] =
      ([0, 1], some 7) :=
  c9_throw_aborts_rest [⟨0, Except.ok ()⟩] ⟨1, Except.error 7⟩
    [⟨2, Except.ok ()⟩] 7
    (by intro x hx; rw [List.mem_singleton] at hx; rw [hx]) rfl

/-! Removal during notify (claim C10).  remove (subs.ts lines 18-20) replaces
the subscriber array with a filtered copy, while notify (lines 22-25) runs
forEach on the array object captured when the iteration started; a reassigned
field does not affect an iteration in flight.  A callback is modelled by the
registry mutation it performs when invoked: possibly a remove of some
identity. -/

/-- A subscriber whose callback, when invoked, optionally removes the
subscriber with the given identity. -/
structure RSub where
  id : Nat
  action : Option Nat
deriving Repr, DecidableEq

/-- Subscribable.remove: the registry becomes a filtered copy without the
given identity. -/
def removeSub (subs : List RSub) (j : Nat) : List RSub :=
  subs.filter (fun f => f.id ≠ j)

/-- Effect of one callback invocation on the current registry. -/
def regStep (cur : List RSub) (s : RSub) : List RSub :=
  match s.action with
  | some j => removeSub cur j
  | none => cur

/-- Subscribable.notify under mutation: iterate the snapshot taken at call
time, invoking every entry of the snapshot in order while the live registry
evolves through the callbacks.  Returns the invocation log and the registry
left for subsequent notifications. -/
def notifySnapshot (subs : List RSub) : List Nat × List RSub :=
  if subs.length < 1 then ([], subs)
  else subs.foldl (fun acc s => (acc.1 ++ [s.id], regStep acc.2 s)) ([], subs)

theorem notifySnapshot_fold_fst (l : List RSub) :
    ∀ acc : List Nat × List RSub,
      (l.foldl (fun acc s => (acc.1 ++ [s.id], regStep acc.2 s)) acc).1 =
        acc.1 ++ l.map RSub.id := by
  induction l with
  | nil => intro acc; simp
  | cons x xs ih =>
    intro acc
    simp only [List.foldl_cons, List.map_cons]
    rw [ih]
    simp

theorem notifySnapshot_fold_snd (l : List RSub) :
    ∀ acc : List Nat × List RSub,
      (l.foldl (fun acc s => (acc.1 ++ [s.id], regStep acc.2 s)) acc).2 =
        l.foldl regStep acc.2 := by
  induction l with
  | nil => intro acc; rfl
  | cons x xs ih => intro acc; simp only [List.foldl_cons]; exact ih _

theorem mem_regStep {cur : List RSub} {s x : RSub} (h : x ∈ regStep cur s) :
    x ∈ cur := by
  cases hact : s.action with
  | none => simpa only [regStep, hact] using h
  | some j =>
    simp only [regStep, hact] at h
    exact List.mem_of_mem_filter h

theorem mem_foldl_regStep (l : List RSub) :
    ∀ cur : List RSub, ∀ x ∈ l.foldl regStep cur, x ∈ cur := by
  induction l with
  | nil => intro cur x hx; exact hx
  | cons a as ih =>
    intro cur x hx
    exact mem_regStep (ih (regStep cur a) x hx)

theorem not_mem_removeSub (cur : List RSub) (j : Nat) :
    ∀ x ∈ removeSub cur j, x.id ≠ j := by
  intro x hx
  have := List.of_mem_filter hx
  simpa using this

/-- The log of a notification never contains identities outside the snapshot
the iteration started from. -/
theorem notifySnapshot_fst (subs : List RSub) :
    (notifySnapshot subs).1 = [] ∨
      (notifySnapshot subs).1 = subs.map RSub.id := by
  unfold notifySnapshot
  by_cases h : subs.length < 1
  · simp [h]
  · rw [if_neg h, notifySnapshot_fold_fst]
    simp

/-- Claim C10: a subscriber removed by a callback invoked during notify is
still invoked in that same in-flight notification (the log is the whole
snapshot, in order), while the removal takes effect for later notifications:
the surviving registry no longer contains the removed identity, so a second
notify does not invoke it. -/
theorem c10_remove_during_notify (subs : List RSub) (s : RSub) (j : Nat)
    (hmem : s ∈ subs) (hact : s.action = some j) :
    (notifySnapshot subs).1 = subs.map RSub.id ∧
      j ∉ ((notifySnapshot subs).2.map RSub.id) ∧
      j ∉ (notifySnapshot (notifySnapshot subs).2).1 := by
  have hlen : ¬ subs.length < 1 := by
    intro hcon
    rw [Nat.lt_one_iff, List.length_eq_zero] at hcon
    rw [hcon] at hmem
    cases hmem
  have hfst : (notifySnapshot subs).1 = subs.map RSub.id := by
    unfold notifySnapshot
    rw [if_neg hlen, notifySnapshot_fold_fst]
    simp
  have hsnd : (notifySnapshot subs).2 = subs.foldl regStep subs := by
    unfold notifySnapshot
    rw [if_neg hlen, notifySnapshot_fold_snd]
  have hreg : ∀ x ∈ (notifySnapshot subs).2, x.id ≠ j := by
    rcases List.append_of_mem hmem with ⟨pre, post, hsplit⟩
    intro x hx
    rw [hsnd, hsplit, List.foldl_append, List.foldl_cons] at hx
    have hx2 : x ∈ regStep (List.foldl regStep (pre ++ s :: post) pre) s :=
      mem_foldl_regStep post _ x hx
    simp only [regStep, hact] at hx2
    exact not_mem_removeSub _ j x hx2
  refine ⟨hfst, ?_, ?_⟩
  · intro hcon
    rcases List.mem_map.mp hcon with ⟨x, hx, hxid⟩
    exact hreg x hx hxid
  · intro hcon
    rcases notifySnapshot_fst (notifySnapshot subs).2 with h2 | h2
    · rw [h2] at hcon; cases hcon
    · rw [h2] at hcon
      rcases List.mem_map.mp hcon with ⟨x, hx, hxid⟩
      exact hreg x hx hxid

/-- Witness for C10 at a concrete registry: subscriber 0 removes subscriber 2
while a notification is running; subscriber 2 is still invoked in that
notification, and is gone from the registry used by the next one. -/
theorem c10_witness :
    (notifySnapshot [⟨0, some 2⟩, ⟨1, none⟩, ⟨2, none⟩]).1 = [0, 1, 2] ∧
      2 ∉ ((notifySnapshot [⟨0, some 2⟩, ⟨1, none⟩, ⟨2, none⟩]).2.map RSub.id) ∧
      2 ∉ (notifySnapshot
            (notifySnapshot [⟨0, some 2⟩, ⟨1, none⟩, ⟨2, none⟩]).2).1 :=
  c10_remove_during_notify [⟨0, some 2⟩, ⟨1, none⟩, ⟨2, none⟩] ⟨0, some 2⟩ 2
    (by decide) rfl

/-! Resize debounce (claim C7).  _Resize.update (subs.ts lines 52-69) clears
any pending timeout and schedules a new one 100ms ahead; when a timeout fires
it reads the window dimensions and notifies only if they differ from the
stored ones.  We model discrete event time in milliseconds; the window
dimensions at each instant are given by two functions of time.  A pending
timeout whose deadline has passed fires before the next event is processed;
under the burst hypothesis (consecutive events less than 100ms apart) no
deadline ever passes between two events, so the tie-break order is
irrelevant. -/

/-- State of the _Resize singleton: stored dimensions, the pending timeout
deadline (timeoutId), and the notifications delivered so far, each carrying
its time and the {width, height} payload. -/
structure ResizeState where
  width : Int
  height : Int
  timeoutDeadline : Option Nat
  notes : List (Nat × Int × Int)
deriving Repr, DecidableEq

/-- The body of the setTimeout callback (subs.ts lines 57-68), run at its
deadline d: read the window dimensions; if either differs from the stored
ones, store them and notify; finally drop the timeout id. -/
def fireTimeout (winW winH : Nat → Int) (s : ResizeState) (d : Nat) :
    ResizeState :=
  let newWidth := winW d
  let newHeight := winH d
  if newWidth ≠ s.width ∨ newHeight ≠ s.height then
    { width := newWidth, height := newHeight, timeoutDeadline := none,
      notes := s.notes ++ [(d, newWidth, newHeight)] }
  else
    { s with timeoutDeadline := none }

/-- _Resize.update at time t: clearTimeout on any pending id, then
setTimeout(…, 100), i.e. the pending deadline becomes t + 100. -/
def resizeUpdate (s : ResizeState) (t : Nat) : ResizeState :=
  { s with timeoutDeadline := some (t + 100) }

/-- Process one resize event at time t: any pending timeout whose deadline
has already passed fires first, then update runs. -/
def stepEvent (winW winH : Nat → Int) (s : ResizeState) (t : Nat) :
    ResizeState :=
  let s2 :=
    match s.timeoutDeadline with
    | some d => if d ≤ t then fireTimeout winW winH s d else s
    | none => s
  resizeUpdate s2 t

/-- Run a sequence of resize events (in time order) and then let any
remaining pending timeout fire at its deadline. -/
def runResize (winW winH : Nat → Int) (s0 : ResizeState)
    (events : List Nat) : ResizeState :=
  let s := events.foldl (stepEvent winW winH) s0
  match s.timeoutDeadline with
  | some d => fireTimeout winW winH s d
  | none => s

/-- The time of the last event of a burst. -/
def lastD (t : Nat) : List Nat → Nat
  | [] => t
  | x :: xs => lastD x xs

theorem burst_foldl (winW winH : Nat → Int) (rest : List Nat) :
    ∀ (t0 : Nat) (w h : Int) (notes : List (Nat × Int × Int)),
      List.Chain (fun a b => a ≤ b ∧ b < a + 100) t0 rest →
      rest.foldl (stepEvent winW winH) ⟨w, h, some (t0 + 100), notes⟩ =
        ⟨w, h, some (lastD t0 rest + 100), notes⟩ := by
  induction rest with
  | nil => intro t0 w h notes _; rfl
  | cons t1 rs ih =>
    intro t0 w h notes hchain
    rcases List.chain_cons.mp hchain with ⟨⟨_, hlt⟩, hchain2⟩
    have hnofire : ¬ t0 + 100 ≤ t1 := not_le.mpr hlt
    have hstep :
        stepEvent winW winH ⟨w, h, some (t0 + 100), notes⟩ t1 =
          ⟨w, h, some (t1 + 100), notes⟩ := by
      simp [stepEvent, resizeUpdate, hnofire]
    rw [List.foldl_cons, hstep, lastD]
    exact ih t1 w h notes hchain2

/-- Claim C7: for a burst of resize events with consecutive gaps under 100ms
starting from an idle debouncer, at most one notification is delivered; it
fires 100ms after the last event with the settled window dimensions, and is
suppressed entirely when those dimensions equal the stored ones. -/
theorem c7_resize_debounce (winW winH : Nat → Int) (w0 h0 : Int)
    (t0 : Nat) (rest : List Nat)
    (hburst : List.Chain (fun a b => a ≤ b ∧ b < a + 100) t0 rest) :
    (runResize winW winH ⟨w0, h0, none, []⟩ (t0 :: rest)).notes =
      (if winW (lastD t0 rest + 100) = w0 ∧ winH (lastD t0 rest + 100) = h0
       then []
       else [(lastD t0 rest + 100, winW (lastD t0 rest + 100),
              winH (lastD t0 rest + 100))]) := by
  have hfirst :
      stepEvent winW winH ⟨w0, h0, none, []⟩ t0 =
        ⟨w0, h0, some (t0 + 100), []⟩ := by
    simp [stepEvent, resizeUpdate]
  rw [runResize]
  simp only [List.foldl_cons, hfirst,
    burst_foldl winW winH rest t0 w0 h0 [] hburst]
  by_cases hsame : winW (lastD t0 rest + 100) = w0 ∧
      winH (lastD t0 rest + 100) = h0
  · rw [if_pos hsame]
    have hcond : ¬ (winW (lastD t0 rest + 100) ≠ w0 ∨
        winH (lastD t0 rest + 100) ≠ h0) := by
      push_neg
      exact hsame
    simp [fireTimeout, hcond]
  · rw [if_neg hsame]
    have hcond : winW (lastD t0 rest + 100) ≠ w0 ∨
        winH (lastD t0 rest + 100) ≠ h0 := by
      rcases not_and_or.mp hsame with hne | hne
      · exact Or.inl hne
      · exact Or.inr hne
    simp [fireTimeout, if_pos hcond]

/-- Witness for C7 at a concrete burst: events at 0, 30 and 90ms, window
settling at 50 by 60 against stored 10 by 20; exactly one notification, at
190ms, with the settled dimensions. -/
theorem c7_witness :
    (runResize (fun _ => 50) (fun _ => 60) ⟨10, 20, none, []⟩
        [0, 30, 90]).notes = [(190, 50, 60)] := by
  rw [c7_resize_debounce (fun _ => 50) (fun _ => 60) 10 20 0 [30, 90]
    (List.Chain.cons ⟨by decide, by decide⟩
      (List.Chain.cons ⟨by decide, by decide⟩ List.Chain.nil))]
  decide

end Subs

namespace Lifecycle

/-! Lifecycle registries and the page transition controller.  The registries
live in modules/_ (the lifecycle module): destroy and mount hold synchronous
callbacks, pageOut and pageIn hold promise-returning callbacks.
_Pages.transitionOut (src/src/lib/pages.ts lines 46-54) awaits runPageOut,
then runs runDestroy synchronously, then Scroll.toTop.

A pageOut callback is modelled by its identity and the settlement its promise
reaches: fulfilled, or rejected with an error code.  A destroy callback is
modelled by its identity.  Execution is recorded in an event log. -/

/-- A registered pageOut callback and the settlement of its promise. -/
structure POEntry where
  id : Nat
  result : Except Nat Unit
deriving Repr

/-- Observable steps of a transition: a pageOut promise settling (with
whether it fulfilled), a destroy callback running, the scroll reset. -/
inductive Event
  | poSettled (id : Nat) (ok : Bool)
  | destroyRun (id : Nat)
  | scrollTop
deriving Repr, DecidableEq

/-- State owned by the controller: the two leave-phase registries, the scroll
position, and the log of steps performed so far. -/
structure LifecycleState where
  pageOut : List POEntry
  destroy : List Nat
  scroll : Int
  log : List Event

/-- Whether a settlement is a fulfillment. -/
def okBool : Except Nat Unit → Bool
  | Except.ok _ => true
  | Except.error _ => false

/-- Promise.allSettled over the started pageOut promises: each promise is
driven to settlement in turn; a rejection is recorded but neither prevents
the remaining promises from settling nor rejects the join itself. -/
def settleAll : List POEntry → List Event
  | [] => []
  | p :: rest => Event.poSettled p.id (okBool p.result) :: settleAll rest

/-- runPageOut (modules/_ lines 89-93): await Promise.allSettled over all
registered pageOut callbacks, then truncate the registry. -/
def runPageOut (st : LifecycleState) : LifecycleState :=
  { st with log := st.log ++ settleAll st.pageOut, pageOut := [] }

/-- The synchronous forEach over the destroy registry. -/
def runDestroyList : List Nat → List Event
  | [] => []
  | d :: rest => Event.destroyRun d :: runDestroyList rest

/-- runDestroy (modules/_ lines 58-62): invoke every destroy callback
synchronously in registration order, then truncate the registry. -/
def runDestroy (st : LifecycleState) : LifecycleState :=
  { st with log := st.log ++ runDestroyList st.destroy, destroy := [] }

/-- Scroll.toTop (the Lenis wrapper, part_003 lines 30-34): scrollTo(0,
immediate). -/
def toTop (st : LifecycleState) : LifecycleState :=
  { st with scroll := 0, log := st.log ++ [Event.scrollTop] }

/-- _Pages.transitionOut (pages.ts lines 46-54): await the pageOut join,
then run destroy, then reset scroll.  It is a total function into
LifecycleState: no rejection of an individual callback is surfaced to the
caller. -/
def transitionOut (st : LifecycleState) : LifecycleState :=
  toTop (runDestroy (runPageOut st))

theorem settleAll_eq_map (l : List POEntry) :
    settleAll l = l.map (fun p => Event.poSettled p.id (okBool p.result)) := by
  induction l with
  | nil => rfl
  | cons p rest ih => simp [settleAll, ih]

theorem runDestroyList_eq_map (l : List Nat) :
    runDestroyList l = l.map Event.destroyRun := by
  induction l with
  | nil => rfl
  | cons d rest ih => simp [runDestroyList, ih]

/-- Claim C1: for every contents of the pageOut and destroy registries,
transitionOut settles every registered pageOut callback exactly once — a
rejection neither stops the other callbacks from settling nor aborts the
phase, and none is surfaced (transitionOut always returns a state) — and
only after all settlements runs every destroy callback synchronously in
registration order exactly once, leaves both registries empty, and finally
resets the scroll position to the top. -/
theorem c1_transitionOut_settles_then_destroys (st : LifecycleState) :
    (transitionOut st).pageOut = [] ∧
      (transitionOut st).destroy = [] ∧
      (transitionOut st).scroll = 0 ∧
      (transitionOut st).log =
        st.log ++
          st.pageOut.map (fun p => Event.poSettled p.id (okBool p.result)) ++
          st.destroy.map Event.destroyRun ++ [Event.scrollTop] := by
  refine ⟨rfl, rfl, rfl, ?_⟩
  simp [transitionOut, toTop, runDestroy, runPageOut,
    settleAll_eq_map, runDestroyList_eq_map]

/-! The element-visibility guard of onPageOut (claim C5). -/

/-- The two fields of getBoundingClientRect that the guard reads
(viewport-relative coordinates). -/
structure Rect where
  top : Int
  bottom : Int
deriving Repr, DecidableEq

/-- The wrapper that onPageOut (modules/_ lines 74-87) pushes when an element
guard is supplied: read the bounding rect at dispatch time, compute
isCurrentlyVisible as rect.top < Resize.height and rect.bottom > 0; when
visible, invoke and await fn, whose settlement becomes the settlement of the
wrapped callback; otherwise resolve at once without invoking fn.  Returns
whether fn was invoked, together with the wrapped settlement. -/
def guardedPageOut (rect : Rect) (resizeHeight : Int)
    (fn : Except Nat Unit) : Bool × Except Nat Unit :=
  if rect.top < resizeHeight ∧ rect.bottom > 0 then (true, fn)
  else (false, Except.ok ())

/-- Claim C5: with an element guard, when the rect does not intersect the
viewport at dispatch time the wrapped callback fulfills without invoking fn;
when it does intersect, fn is invoked and its settlement is awaited. -/
theorem c5_element_guard (rect : Rect) (wh : Int) (fn : Except Nat Unit) :
    (¬ (rect.top < wh ∧ rect.bottom > 0) →
        guardedPageOut rect wh fn = (false, Except.ok ())) ∧
      ((rect.top < wh ∧ rect.bottom > 0) →
        guardedPageOut rect wh fn = (true, fn)) := by
  constructor
  · intro h
    simp [guardedPageOut, h]
  · intro h
    simp [guardedPageOut, h]

/-- Witness for C5 at concrete rects (viewport height 800): an element fully
below the viewport never runs its animation body, an element in view does,
and its rejection becomes the settlement of the wrapped callback. -/
theorem c5_witness :
    guardedPageOut ⟨900, 1100⟩ 800 (Except.error 3) = (false, Except.ok ()) ∧
      guardedPageOut ⟨100, 300⟩ 800 (Except.error 3) =
        (true, Except.error 3) :=
  ⟨(c5_element_guard ⟨900, 1100⟩ 800 (Except.error 3)).1 (by decide),
   (c5_element_guard ⟨100, 300⟩ 800 (Except.error 3)).2 (by decide)⟩

end Lifecycle

namespace Cycles

/-! createCycles (part_004 lines 11-60): scan the DOM for data-module
elements, skip those whose _moduleInitialized marker is set, resolve the
named module from the eager glob, invoke its default export, and collect the
non-null return values.  An element is modelled by its attribute value (a Nat
token) and its marker; the glob is a function from attribute values to what
resolution finds; invoking a binding either returns a component (a Nat
token) or throws. -/

/-- Resolution of a data-module attribute value against the module glob. -/
inductive Module
  | found (outcome : Except Nat Nat)
  | notFunction
  | missing

/-- A DOM element carrying a data-module attribute. -/
structure Elem where
  attr : Nat
  moduleInitialized : Bool
deriving Repr, DecidableEq

/-- Outcome of processing one element: the element as the scan leaves it,
the value contributed to the returned array (none for the null results that
filter drops), whether the binding function was invoked, and whether a
console warning was emitted. -/
structure StepResult where
  elem : Elem
  result : Option Nat
  invoked : Bool
  warned : Bool
deriving Repr, DecidableEq

/-- The body of the map over elements (part_004 lines 13-58): skip an
already-initialized element; otherwise resolve the module; for a function
default export, set the marker, invoke the binding, and on a synchronous
throw delete the marker, warn and return null; for a missing module or a
non-function export, warn and return null. -/
def stepElem (mods : Nat → Module) (e : Elem) : StepResult :=
  if e.moduleInitialized then ⟨e, none, false, false⟩
  else
    match mods e.attr with
    | Module.found outcome =>
      match outcome with
      | Except.ok v => ⟨{ e with moduleInitialized := true }, some v, true, false⟩
      | Except.error _ =>
        ⟨{ e with moduleInitialized := false }, none, true, true⟩
    | Module.notFunction => ⟨e, none, false, true⟩
    | Module.missing => ⟨e, none, false, true⟩

/-- Everything a scan produces: the elements with updated markers, the
returned array as (element index, value) pairs, and the indices of elements
whose binding was invoked or that triggered a warning, in scan order. -/
structure ScanResult where
  elems : List Elem
  results : List (Nat × Nat)
  invoked : List Nat
  warnedIdx : List Nat
deriving Repr, DecidableEq

/-- Process the element list, numbering elements from i. -/
def scanFrom (mods : Nat → Module) (i : Nat) : List Elem → ScanResult
  | [] => ⟨[], [], [], []⟩
  | e :: rest =>
    let r := stepElem mods e
    let tail := scanFrom mods (i + 1) rest
    ⟨r.elem :: tail.elems,
     (match r.result with
      | some v => (i, v) :: tail.results
      | none => tail.results),
     (if r.invoked then i :: tail.invoked else tail.invoked),
     (if r.warned then i :: tail.warnedIdx else tail.warnedIdx)⟩

/-- createCycles over the current element list. -/
def createCycles (mods : Nat → Module) (elems : List Elem) : ScanResult :=
  scanFrom mods 0 elems

theorem scan_elems_get (mods : Nat → Module) (l : List Elem) :
    ∀ (i k : Nat),
      (scanFrom mods i l).elems[k]? =
        (l[k]?).map (fun e => (stepElem mods e).elem) := by
  induction l with
  | nil => intro i k; simp [scanFrom]
  | cons e rest ih =>
    intro i k
    cases k with
    | zero => simp [scanFrom]
    | succ k2 => simpa [scanFrom] using ih (i + 1) k2

theorem scan_results_sound (mods : Nat → Module) (l : List Elem) :
    ∀ (i : Nat) (p : Nat × Nat), p ∈ (scanFrom mods i l).results →
      ∃ (k : Nat) (e : Elem), l[k]? = some e ∧ p.1 = i + k ∧
        (stepElem mods e).result = some p.2 := by
  induction l with
  | nil => intro i p hp; simp [scanFrom] at hp
  | cons e rest ih =>
    intro i p hp
    simp only [scanFrom] at hp
    cases hres : (stepElem mods e).result with
    | some v =>
      rw [hres] at hp
      rcases List.mem_cons.mp hp with hp2 | hp2
      · refine ⟨0, e, by simp, ?_, ?_⟩
        · rw [hp2]; simp
        · rw [hp2, hres]
      · rcases ih (i + 1) p hp2 with ⟨k, e2, hk, hpk, hr⟩
        exact ⟨k + 1, e2, by simpa using hk, by omega, hr⟩
    | none =>
      rw [hres] at hp
      rcases ih (i + 1) p hp with ⟨k, e2, hk, hpk, hr⟩
      exact ⟨k + 1, e2, by simpa using hk, by omega, hr⟩

theorem scan_invoked_sound (mods : Nat → Module) (l : List Elem) :
    ∀ (i j : Nat), j ∈ (scanFrom mods i l).invoked →
      ∃ (k : Nat) (e : Elem), l[k]? = some e ∧ j = i + k ∧
        (stepElem mods e).invoked = true := by
  induction l with
  | nil => intro i j hj; simp [scanFrom] at hj
  | cons e rest ih =>
    intro i j hj
    simp only [scanFrom] at hj
    by_cases hinv : (stepElem mods e).invoked
    · rw [if_pos hinv] at hj
      rcases List.mem_cons.mp hj with hj2 | hj2
      · exact ⟨0, e, by simp, by omega, hinv⟩
      · rcases ih (i + 1) j hj2 with ⟨k, e2, hk, hjk, hr⟩
        exact ⟨k + 1, e2, by simpa using hk, by omega, hr⟩
    · rw [if_neg hinv] at hj
      rcases ih (i + 1) j hj with ⟨k, e2, hk, hjk, hr⟩
      exact ⟨k + 1, e2, by simpa using hk, by omega, hr⟩

theorem scan_invoked_complete (mods : Nat → Module) (l : List Elem) :
    ∀ (i k : Nat) (e : Elem), l[k]? = some e →
      (stepElem mods e).invoked = true → (i + k) ∈ (scanFrom mods i l).invoked := by
  induction l with
  | nil => intro i k e hk; simp at hk
  | cons e0 rest ih =>
    intro i k e hk hinv
    cases k with
    | zero =>
      simp only [List.getElem?_cons_zero, Option.some.injEq] at hk
      subst hk
      simp only [scanFrom, hinv, if_pos]
      exact List.mem_cons_self _ _
    | succ k2 =>
      simp only [List.getElem?_cons_succ] at hk
      have htail := ih (i + 1) k2 e hk hinv
      have harith : i + (k2 + 1) = (i + 1) + k2 := by omega
      rw [harith]
      simp only [scanFrom]
      by_cases hinv0 : (stepElem mods e0).invoked
      · rw [if_pos hinv0]; exact List.mem_cons_of_mem _ htail
      · rw [if_neg hinv0]; exact htail

theorem scan_warned_complete (mods : Nat → Module) (l : List Elem) :
    ∀ (i k : Nat) (e : Elem), l[k]? = some e →
      (stepElem mods e).warned = true → (i + k) ∈ (scanFrom mods i l).warnedIdx := by
  induction l with
  | nil => intro i k e hk; simp at hk
  | cons e0 rest ih =>
    intro i k e hk hw
    cases k with
    | zero =>
      simp only [List.getElem?_cons_zero, Option.some.injEq] at hk
      subst hk
      simp only [scanFrom, hw, if_pos]
      exact List.mem_cons_self _ _
    | succ k2 =>
      simp only [List.getElem?_cons_succ] at hk
      have htail := ih (i + 1) k2 e hk hw
      have harith : i + (k2 + 1) = (i + 1) + k2 := by omega
      rw [harith]
      simp only [scanFrom]
      by_cases hw0 : (stepElem mods e0).warned
      · rw [if_pos hw0]; exact List.mem_cons_of_mem _ htail
      · rw [if_neg hw0]; exact htail

theorem stepElem_initialized {mods : Nat → Module} {e : Elem}
    (h : e.moduleInitialized = true) :
    stepElem mods e = ⟨e, none, false, false⟩ := by
  simp [stepElem, h]

theorem stepElem_result_initialized {mods : Nat → Module} {e : Elem} {v : Nat}
    (h : (stepElem mods e).result = some v) :
    (stepElem mods e).elem.moduleInitialized = true := by
  by_cases hi : e.moduleInitialized
  · rw [stepElem_initialized hi] at h
    cases h
  · simp only [stepElem, hi, if_neg, Bool.false_eq_true, ite_false]
    cases hm : mods e.attr with
    | found outcome =>
      cases outcome with
      | ok w => simp
      | error c =>
        simp only [stepElem, hi, Bool.false_eq_true, ite_false, hm] at h
        cases h
    | notFunction =>
      simp only [stepElem, hi, Bool.false_eq_true, ite_false, hm] at h
      cases h
    | missing =>
      simp only [stepElem, hi, Bool.false_eq_true, ite_false, hm] at h
      cases h

theorem stepElem_throw {mods : Nat → Module} {e : Elem} {c : Nat}
    (hinit : e.moduleInitialized = false)
    (hmod : mods e.attr = Module.found (Except.error c)) :
    stepElem mods e = ⟨e, none, true, true⟩ := by
  have he : { e with moduleInitialized := false } = e := by
    cases e with
    | mk a b => simp_all
  simp [stepElem, hinit, hmod, he]

/-- Claim C8: when the binding resolved for a not-yet-initialized element
throws synchronously, createCycles still returns (the error is caught), a
warning is logged for that element, its initialized marker is rolled back so
the element is left unchanged, it contributes nothing to the returned array,
and a later createCycles call invokes its binding again. -/
theorem c8_binding_throw_recovery (mods : Nat → Module)
    (pre : List Elem) (e : Elem) (post : List Elem) (c : Nat)
    (hinit : e.moduleInitialized = false)
    (hmod : mods e.attr = Module.found (Except.error c)) :
    (createCycles mods (pre ++ e :: post)).elems[pre.length]? = some e ∧
      pre.length ∈ (createCycles mods (pre ++ e :: post)).invoked ∧
      pre.length ∈ (createCycles mods (pre ++ e :: post)).warnedIdx ∧
      (∀ p ∈ (createCycles mods (pre ++ e :: post)).results,
        p.1 ≠ pre.length) ∧
      pre.length ∈
        (createCycles mods
          (createCycles mods (pre ++ e :: post)).elems).invoked := by
  have hget : (pre ++ e :: post)[pre.length]? = some e := by
    rw [List.getElem?_append_right (Nat.le_refl pre.length)]
    simp
  have hstep : stepElem mods e = ⟨e, none, true, true⟩ := stepElem_throw hinit hmod
  have helems : (createCycles mods (pre ++ e :: post)).elems[pre.length]? = some e := by
    rw [createCycles, scan_elems_get mods _ 0 pre.length, hget]
    simp [hstep]
  refine ⟨helems, ?_, ?_, ?_, ?_⟩
  · have := scan_invoked_complete mods (pre ++ e :: post) 0 pre.length e hget
      (by rw [hstep])
    simpa using this
  · have := scan_warned_complete mods (pre ++ e :: post) 0 pre.length e hget
      (by rw [hstep])
    simpa using this
  · intro p hp hcon
    rcases scan_results_sound mods (pre ++ e :: post) 0 p hp with
      ⟨k, e2, hk, hpk, hr⟩
    have hke : k = pre.length := by omega
    rw [hke, hget] at hk
    have he2 : e2 = e := by
      injection hk with h2
      exact h2.symm
    rw [he2, hstep] at hr
    cases hr
  · have := scan_invoked_complete mods
      (createCycles mods (pre ++ e :: post)).elems 0 pre.length e helems
      (by rw [hstep])
    simpa using this

/-- Witness for C8 at a concrete scan: a single element bound to a module
whose default function throws exception 9. -/
theorem c8_witness :
    (createCycles (fun _ => Module.found (Except.error 9))
        [⟨5, false⟩]).elems[0]? = some ⟨5, false⟩ ∧
      0 ∈ (createCycles (fun _ => Module.found (Except.error 9))
        [⟨5, false⟩]).invoked ∧
      0 ∈ (createCycles (fun _ => Module.found (Except.error 9))
        [⟨5, false⟩]).warnedIdx ∧
      (∀ p ∈ (createCycles (fun _ => Module.found (Except.error 9))
        [⟨5, false⟩]).results, p.1 ≠ 0) ∧
      0 ∈ (createCycles (fun _ => Module.found (Except.error 9))
        (createCycles (fun _ => Module.found (Except.error 9))
          [⟨5, false⟩]).elems).invoked :=
  c8_binding_throw_recovery (fun _ => Module.found (Except.error 9))
    [] ⟨5, false⟩ [] 9 rfl rfl

/-- Counterexample to claim C6 as stated: with one element whose binding
throws, the first createCycles call invokes its binding, yet the element
does not carry the initialized marker afterwards, and a second call with no
new elements invokes a binding for it again — not zero re-initializations. -/
theorem c6_counterexample :
    0 ∈ (createCycles (fun _ => Module.found (Except.error 0))
        [⟨5, false⟩]).invoked ∧
      (createCycles (fun _ => Module.found (Except.error 0))
        [⟨5, false⟩]).elems[0]? = some ⟨5, false⟩ ∧
      0 ∈ (createCycles (fun _ => Module.found (Except.error 0))
        (createCycles (fun _ => Module.found (Except.error 0))
          [⟨5, false⟩]).elems).invoked := by
  refine ⟨?_, rfl, ?_⟩ <;> decide

/-- Claim C6 (amended): every element whose binding was invoked by the first
createCycles call and returned without throwing carries the initialized
marker, and a second call with no new elements added invokes no binding for
it. -/
theorem c6_second_scan_skips_initialized (mods : Nat → Module)
    (elems : List Elem) (i v : Nat)
    (hres : (i, v) ∈ (createCycles mods elems).results) :
    (∃ e2, (createCycles mods elems).elems[i]? = some e2 ∧
        e2.moduleInitialized = true) ∧
      i ∉ (createCycles mods (createCycles mods elems).elems).invoked := by
  rcases scan_results_sound mods elems 0 (i, v) hres with ⟨k, e, hk, hik, hr⟩
  have hki : k = i := by omega
  subst hki
  have hinit2 : (stepElem mods e).elem.moduleInitialized = true :=
    stepElem_result_initialized hr
  have hget2 : (createCycles mods elems).elems[k]? =
      some (stepElem mods e).elem := by
    rw [createCycles, scan_elems_get mods elems 0 k, hk]
    rfl
  refine ⟨⟨(stepElem mods e).elem, hget2, hinit2⟩, ?_⟩
  intro hcon
  rcases scan_invoked_sound mods (createCycles mods elems).elems 0 k hcon with
    ⟨k2, e3, hk2, hkk2, hinv3⟩
  have hk2k : k2 = k := by omega
  subst hk2k
  rw [hget2] at hk2
  have he3 : e3 = (stepElem mods e).elem := by
    injection hk2 with h2
    exact h2.symm
  rw [he3, stepElem_initialized hinit2] at hinv3
  cases hinv3

/-- Witness for the amended C6 at a concrete scan: one element successfully
initialized by the first call (component value 42); the second call skips
it. -/
theorem c6_witness :
    (∃ e2, (createCycles (fun _ => Module.found (Except.ok 42))
        [⟨5, false⟩]).elems[0]? = some e2 ∧ e2.moduleInitialized = true) ∧
      0 ∉ (createCycles (fun _ => Module.found (Except.ok 42))
        (createCycles (fun _ => Module.found (Except.ok 42))
          [⟨5, false⟩]).elems).invoked :=
  c6_second_scan_skips_initialized (fun _ => Module.found (Except.ok 42))
    [⟨5, false⟩] 0 42 (by decide)

end Cycles

namespace Track

/-! Track (part_004 lines 84-187): computeBounds derives document-space
trigger bounds from clientRect, and the private scroll handler maps the
current scroll position through those bounds into the configured value range
and clamps.  JS numbers are modelled as rationals. -/

/-- Modelled from the spec: the module utils/math is not among the provided
sources (only its import in part_004 is).  Section 4.5 of the spec describes
the handler as clamp01 applied to the mapped value, so clamp(0, 1, v) clamps
v into the interval [0, 1]: it is min(max(v, mn), mx) with mn = 0 and
mx = 1. -/
def clamp (mn mx v : ℚ) : ℚ := min mx (max v mn)

/-- Modelled from the spec: the module utils/math is not among the provided
sources.  map(value, low1, high1, low2, high2) is the standard affine
range-remapping low2 + (high2 - low2) * (value - low1) / (high1 - low1),
matching the call shape map(scrollPosition, bounds.top, bounds.bottom,
boundsConfig[0], boundsConfig[1]) given in section 4.5 of the spec. -/
def map (v l1 h1 l2 h2 : ℚ) : ℚ := l2 + (h2 - l2) * ((v - l1) / (h1 - l1))

/-- The fields of clientRect (src/src/utils/client-rect.ts lines 4-20) that
computeBounds reads: document-space top and bottom (viewport rect offset by
the current scroll) and the viewport height wh. -/
structure BoundsRect where
  top : ℚ
  bottom : ℚ
  wh : ℚ
deriving Repr, DecidableEq

/-- clientRect restricted to those fields: top and bottom are the viewport
rect values plus Scroll.scroll, wh is Resize.height. -/
def clientRect (rectTop rectBottom scroll wh : ℚ) : BoundsRect :=
  ⟨rectTop + scroll, rectBottom + scroll, wh⟩

/-- A trigger point of the Track configuration. -/
inductive TriggerPoint
  | top
  | center
  | bottom
deriving Repr, DecidableEq

/-- computeBounds (part_004 lines 168-187): shift each document-space edge by
the offset selected by its trigger point — half the viewport height for
center, the full viewport height for bottom, zero for top. -/
def computeBounds (bounds : BoundsRect) (ctop cbottom : TriggerPoint) :
    ℚ × ℚ :=
  let centerOffset := bounds.wh / 2
  (bounds.top -
     (match ctop with
      | TriggerPoint.center => centerOffset
      | TriggerPoint.bottom => bounds.wh
      | TriggerPoint.top => 0),
   bounds.bottom -
     (match cbottom with
      | TriggerPoint.center => centerOffset
      | TriggerPoint.bottom => bounds.wh
      | TriggerPoint.top => 0))

/-- The value assignment in the private scroll handler (part_004 lines
142-152): clamp(0, 1, map(Scroll.scroll, bounds.top, bounds.bottom,
config.bounds[0], config.bounds[1])). -/
def trackValue (scroll btop bbottom b0 b1 : ℚ) : ℚ :=
  clamp 0 1 (map scroll btop bbottom b0 b1)

/-- The whole handler (part_004 lines 140-157): keep the previous value when
not in view or before init, otherwise recompute. -/
def handleScroll (inView init : Bool) (value scroll btop bbottom b0 b1 : ℚ) :
    ℚ :=
  if !inView || !init then value else trackValue scroll btop bbottom b0 b1

/-- Counterexample to claim C3 as stated: a Track configured with
bounds = [2, 5], computed pixel bounds (0, 100), in view, at scroll position
100: the handler yields clamp(0, 1, map(100, 0, 100, 2, 5)) =
clamp(0, 1, 5) = 1, which is outside [2, 5]. -/
theorem c3_counterexample :
    handleScroll true true 0 100 0 100 2 5 = 1 ∧
      ¬ (2 ≤ handleScroll true true 0 100 0 100 2 5 ∧
          handleScroll true true 0 100 0 100 2 5 ≤ 5) := by
  norm_num [handleScroll, trackValue, clamp, map]

/-- Claim C3 (amended): for every Track and every scroll notification
processed while the element is in view, the value computed by the scroll
handler lies in [0, 1] — the handler clamps with clamp(0, 1, ·) regardless
of the configured bounds, so the computed value lies in the configured
interval [boundsMin, boundsMax] only when that interval is [0, 1] (the
default). -/
theorem c3_value_in_unit_interval (inView init : Bool)
    (value scroll btop bbottom b0 b1 : ℚ)
    (hview : inView = true) (hinit : init = true) :
    0 ≤ handleScroll inView init value scroll btop bbottom b0 b1 ∧
      handleScroll inView init value scroll btop bbottom b0 b1 ≤ 1 := by
  subst hview
  subst hinit
  simp only [handleScroll, Bool.not_true, Bool.or_self, Bool.false_eq_true,
    if_false, ite_false]
  unfold trackValue clamp
  constructor
  · exact le_min (by norm_num) (le_max_of_le_right le_rfl)
  · exact min_le_left _ _

/-- Witness for the amended C3 at the concrete inputs of the counterexample:
the value 1 computed there does lie in [0, 1]. -/
theorem c3_witness :
    0 ≤ handleScroll true true 0 100 0 100 2 5 ∧
      handleScroll true true 0 100 0 100 2 5 ≤ 1 :=
  c3_value_in_unit_interval true true 0 100 0 100 2 5 rfl rfl

theorem trackValue_eq (s : ℚ) :
    trackValue s (-700) 300 0 1 = min 1 (max ((s + 700) / 1000) 0) := by
  unfold trackValue clamp map
  norm_num

/-- Claim C4: for an element whose document-space span is [100, 300] (its
viewport rect at current scroll s0 spans [100 - s0, 300 - s0]) with trigger
configuration top = bottom edge and bottom = top edge, viewport height 800
and bounds = [0, 1]: the computed bounds are (-700, 300), and the value as a
function of scroll position is monotone non-decreasing, 0 at and below
scroll -700, 1 at and above scroll 300, and within [0, 1] everywhere. -/
theorem c4_bounds_and_monotone :
    (∀ s0 : ℚ, computeBounds (clientRect (100 - s0) (300 - s0) s0 800)
        TriggerPoint.bottom TriggerPoint.top = (-700, 300)) ∧
      (∀ s t : ℚ, s ≤ t →
        trackValue s (-700) 300 0 1 ≤ trackValue t (-700) 300 0 1) ∧
      (∀ s : ℚ, s ≤ -700 → trackValue s (-700) 300 0 1 = 0) ∧
      (∀ s : ℚ, 300 ≤ s → trackValue s (-700) 300 0 1 = 1) ∧
      (∀ s : ℚ, 0 ≤ trackValue s (-700) 300 0 1 ∧
        trackValue s (-700) 300 0 1 ≤ 1) := by
  refine ⟨?_, ?_, ?_, ?_, ?_⟩
  · intro s0
    simp only [computeBounds, clientRect, Prod.mk.injEq]
    constructor <;> ring
  · intro s t hst
    rw [trackValue_eq s, trackValue_eq t]
    have h : (s + 700) / 1000 ≤ (t + 700) / 1000 := by
      apply div_le_div_of_nonneg_right ?_ (by norm_num)
      · linarith
    exact min_le_min le_rfl (max_le_max h le_rfl)
  · intro s hs
    rw [trackValue_eq s]
    have h : (s + 700) / 1000 ≤ 0 := by
      apply div_nonpos_of_nonpos_of_nonneg (by linarith) (by norm_num)
    rw [max_eq_right h, min_eq_right (by norm_num)]
  · intro s hs
    rw [trackValue_eq s]
    have h : (1 : ℚ) ≤ (s + 700) / 1000 := by
      rw [le_div_iff₀ (by norm_num)]
      linarith
    have h0 : (0 : ℚ) ≤ (s + 700) / 1000 := le_trans (by norm_num) h
    rw [max_eq_left h0, min_eq_left h]
  · intro s
    rw [trackValue_eq s]
    exact ⟨le_min (by norm_num) (le_max_of_le_right le_rfl), min_le_left _ _⟩

/-- Witness for C4 at concrete scroll positions: the bounds at scroll 250,
the clamped endpoints at -1000 and 500, and one monotonicity instance. -/
theorem c4_witness :
    computeBounds (clientRect (100 - 250) (300 - 250) 250 800)
        TriggerPoint.bottom TriggerPoint.top = (-700, 300) ∧
      trackValue (-1000) (-700) 300 0 1 = 0 ∧
      trackValue 500 (-700) 300 0 1 = 1 ∧
      trackValue (-200) (-700) 300 0 1 ≤ trackValue 0 (-700) 300 0 1 :=
  ⟨c4_bounds_and_monotone.1 250,
   c4_bounds_and_monotone.2.2.1 (-1000) (by norm_num),
   c4_bounds_and_monotone.2.2.2.1 500 (by norm_num),
   c4_bounds_and_monotone.2.1 (-200) 0 (by norm_num)⟩

end Track
